import Mathlib

/-!
Verification of the event-ingestion core of `plugin-server`.

The definitions below are a shallow embedding of the TypeScript source:
`src/worker/ingestion/process-event.ts` (the `EventsProcessor` class) and the
`DB` access layer (`utils/db/db.ts`). JavaScript objects used as string-keyed
property maps are modelled as association lists; the JS spread `{...a, ...b}`
is the `spread` function; Luxon `DateTime` instants are modelled as `Int`
milliseconds since epoch; thrown exceptions are modelled with explicit
outcome oracles or `Except`-style result types.
-/

namespace PluginServer

/-- A JS object used as a string-keyed property map, in insertion order. -/
abbrev Props := List (String × String)

/-- Property lookup: the value at key `k`, i.e. `obj[k]`. -/
def getProp (ps : Props) (k : String) : Option String :=
  (ps.find? (fun p => p.1 == k)).map (·.2)

/-- The JS object spread `{...a, ...b}`: keys of `a` not overridden by `b`
followed by `b`; on a key clash `b` wins. -/
def spread (a b : Props) : Props :=
  a.filter (fun p => (getProp b p.1).isNone) ++ b

/-- Lookup skips a leading entry whose key differs from `k`. -/
theorem getProp_cons_of_ne (x : String × String) (ps : Props) (k : String) (h : x.1 ≠ k) :
    getProp (x :: ps) k = getProp ps k := by
  unfold getProp
  rw [List.find?_cons_of_neg _ (by simp [h])]

/-- Lookup hits a leading entry whose key is `k`. -/
theorem getProp_cons_self (x : String × String) (ps : Props) (k : String) (h : x.1 = k) :
    getProp (x :: ps) k = some x.2 := by
  unfold getProp
  rw [List.find?_cons_of_pos _ (by simp [h])]
  rfl

/-- Lookup in a spread: `b` wins on a key clash, otherwise fall back to `a`. -/
theorem getProp_spread (a b : Props) (k : String) :
    getProp (spread a b) k =
      if (getProp b k).isSome then getProp b k else getProp a k := by
  induction a with
  | nil =>
    show getProp (List.filter (fun p => (getProp b p.1).isNone) [] ++ b) k = _
    rw [List.filter_nil, List.nil_append]
    cases hb : getProp b k with
    | none => simp [hb, getProp]
    | some v => simp
  | cons x xs ih =>
    show getProp (List.filter (fun p => (getProp b p.1).isNone) (x :: xs) ++ b) k = _
    rw [List.filter_cons]
    by_cases hfx : (getProp b x.1).isNone
    · rw [if_pos (by simpa using hfx), List.cons_append]
      by_cases hk : x.1 = k
      · have hb : getProp b k = none := by
          rw [← hk]; exact Option.isNone_iff_eq_none.mp hfx
        rw [hb]
        simp only [Option.isSome_none, Bool.false_eq_true, if_false]
        rw [getProp_cons_self x (List.filter (fun p => (getProp b p.1).isNone) xs ++ b) k hk,
          getProp_cons_self x xs k hk]
      · rw [getProp_cons_of_ne x (List.filter (fun p => (getProp b p.1).isNone) xs ++ b) k hk,
          getProp_cons_of_ne x xs k hk]
        exact ih
    · rw [if_neg (by simpa using hfx)]
      by_cases hk : x.1 = k
      · have hbk : (getProp b k).isSome := by
          rw [← hk]
          simpa [Option.isNone_iff_eq_none, Option.isSome_iff_ne_none] using hfx
        rw [if_pos hbk]
        have h2 := ih
        rw [if_pos hbk] at h2
        exact h2
      · rw [getProp_cons_of_ne x xs k hk]
        exact ih

/-! ## Data model: persons and distinct-id rows -/

/-- A row of `posthog_person` as used by the ingestion core. `created_at` is a
UTC instant in milliseconds since epoch. -/
structure Person where
  id : Nat
  uuid : String
  team_id : Nat
  created_at : Int
  properties : Props
  is_identified : Bool
deriving DecidableEq

/-- A row of `posthog_persondistinctid`. -/
structure PersonDistinctId where
  id : Nat
  distinct_id : String
  person_id : Nat
  team_id : Nat
deriving DecidableEq

/-- The relational state the identity resolver mutates. -/
structure DBState where
  persons : List Person
  distinctIds : List PersonDistinctId
deriving DecidableEq

/-- Embedding of `DB.updatePerson` applied with the patch used by `mergePeople`: the row whose
id is `personId` gets the merged `created_at` and `properties`. -/
def updatePersonRow (st : DBState) (personId : Nat) (createdAt : Int) (props : Props) :
    DBState :=
  { st with
    persons := st.persons.map fun p =>
      if p.id == personId then { p with created_at := createdAt, properties := props } else p }

/-- Modelled from the spec: `DB.moveDistinctIds(otherPerson, mergeInto)` is called by
`mergePeople` but its body is not among the provided source files. Per spec §4.2
(`move_distinct_ids(other → into)`) and §4.3 (`move_distinct_id(id, into_person)`),
it reassigns every distinct-id row currently attached to `other` to `mergeInto`. -/
def moveDistinctIds (st : DBState) (other mergeInto : Person) : DBState :=
  { st with
    distinctIds := st.distinctIds.map fun d =>
      if d.person_id == other.id then { d with person_id := mergeInto.id } else d }

/-- Embedding of `DB.deletePerson`: deletes the distinct-id rows of the person, then the person row
(db.ts, one transaction). -/
def deletePersonRows (st : DBState) (person : Person) : DBState :=
  { persons := st.persons.filter fun p => p.id != person.id,
    distinctIds := st.distinctIds.filter fun d => d.person_id != person.id }

/-- The state transformation of a successful `mergePeople(mergeInto, otherPerson)` call
(process-event.ts lines 351-433), i.e. the run in which `moveDistinctIds` and
`deletePerson` succeed: merge properties with `mergeInto` winning, keep the older
`created_at`, update the `mergeInto` row, move the distinct ids, delete the other row. -/
def mergePeopleRun (st : DBState) (mergeInto otherPerson : Person) : DBState :=
  let firstSeen : Int :=
    if otherPerson.created_at < mergeInto.created_at then otherPerson.created_at
    else mergeInto.created_at
  let mergedProperties := spread otherPerson.properties mergeInto.properties
  let st1 := updatePersonRow st mergeInto.id firstSeen mergedProperties
  let st2 := moveDistinctIds st1 otherPerson mergeInto
  deletePersonRows st2 otherPerson

/-! ## Person-property update (C5) -/

/-- The merged properties computed by `updatePersonProperties` (process-event.ts
line 258): the JS spread of `propertiesOnce`, then the existing
properties, then `properties` (the `$set` payload). -/
def updatedProperties (existing properties propertiesOnce : Props) : Props :=
  spread (spread propertiesOnce existing) properties

/-- C5: the person-property update computes set_once ⊕ existing ⊕ set — the `$set`
payload wins over existing values, which win over `$set_once`, so `$set_once` only
fills keys absent from both; concretely, a person holding color=red receiving
`$set_once` color=blue, size=L ends with color=red, size=L. -/
theorem updatePersonProperties_set_once_semantics :
    (∀ (existing setPayload setOncePayload : Props) (k : String),
      getProp (updatedProperties existing setPayload setOncePayload) k =
        if (getProp setPayload k).isSome then getProp setPayload k
        else if (getProp existing k).isSome then getProp existing k
        else getProp setOncePayload k) ∧
    getProp (updatedProperties [("color", "red")] [] [("color", "blue"), ("size", "L")])
      "color" = some "red" ∧
    getProp (updatedProperties [("color", "red")] [] [("color", "blue"), ("size", "L")])
      "size" = some "L" := by
  refine ⟨?_, by decide, by decide⟩
  intro e s o k
  unfold updatedProperties
  rw [getProp_spread, getProp_spread]

/-- C1: after a successful `mergePeople(mergeInto, otherPerson)` on two distinct
persons of one team, the row of the other person is deleted, every distinct-id formerly
attached to the other person is attached to `mergeInto`, the merged properties are
the properties of the other person overridden by those of `mergeInto` (so `mergeInto` wins on a
key conflict), and the new `created_at` is the minimum of the two. -/
theorem mergePeople_success_postconditions (st : DBState) (mergeInto otherPerson : Person)
    (hid : mergeInto.id ≠ otherPerson.id)
    (hteam : mergeInto.team_id = otherPerson.team_id) :
    (∀ p ∈ (mergePeopleRun st mergeInto otherPerson).persons, p.id ≠ otherPerson.id) ∧
    (∀ d ∈ st.distinctIds, d.person_id = otherPerson.id →
      { d with person_id := mergeInto.id } ∈
        (mergePeopleRun st mergeInto otherPerson).distinctIds) ∧
    (∀ p ∈ (mergePeopleRun st mergeInto otherPerson).persons, p.id = mergeInto.id →
      p.properties = spread otherPerson.properties mergeInto.properties ∧
      p.created_at = min otherPerson.created_at mergeInto.created_at) := by
  simp only [mergePeopleRun, updatePersonRow, moveDistinctIds, deletePersonRows]
  refine ⟨?_, ?_, ?_⟩
  · intro p hp
    rw [List.mem_filter] at hp
    simpa using hp.2
  · intro d hd hdp
    rw [List.mem_filter]
    constructor
    · rw [List.mem_map]
      refine ⟨d, hd, ?_⟩
      rw [if_pos (by simpa using hdp)]
    · simpa using hid
  · intro p hp hpid
    rw [List.mem_filter, List.mem_map] at hp
    obtain ⟨⟨q, hq, hqe⟩, hpo⟩ := hp
    by_cases hqid : q.id = mergeInto.id
    · rw [if_pos (by simpa using hqid)] at hqe
      subst hqe
      refine ⟨rfl, ?_⟩
      show (if otherPerson.created_at < mergeInto.created_at then otherPerson.created_at
        else mergeInto.created_at) = _
      split <;> omega
    · rw [if_neg (by simpa using hqid)] at hqe
      subst hqe
      exact absurd hpid hqid

/-- Witness inputs for the merge postconditions: the losing person (id 1, distinct-id
a, created at 100) and the winning person (id 2, distinct-id b, created at 150). -/
def mergeWitnessOther : Person :=
  { id := 1, uuid := "uuid-a", team_id := 5, created_at := 100,
    properties := [("color", "blue"), ("size", "L")], is_identified := false }

/-- Witness input: the person merged into. -/
def mergeWitnessInto : Person :=
  { id := 2, uuid := "uuid-b", team_id := 5, created_at := 150,
    properties := [("color", "red")], is_identified := false }

/-- Witness input: the pre-merge relational state. -/
def mergeWitnessState : DBState :=
  { persons := [mergeWitnessOther, mergeWitnessInto],
    distinctIds := [{ id := 10, distinct_id := "a", person_id := 1, team_id := 5 },
                    { id := 11, distinct_id := "b", person_id := 2, team_id := 5 }] }

/-- Witness for C1: the postconditions hold on the concrete two-person state. -/
theorem mergePeople_success_postconditions_witness :
    mergeWitnessInto.id ≠ mergeWitnessOther.id ∧
    mergeWitnessInto.team_id = mergeWitnessOther.team_id ∧
    ((∀ p ∈ (mergePeopleRun mergeWitnessState mergeWitnessInto mergeWitnessOther).persons,
        p.id ≠ mergeWitnessOther.id) ∧
     (∀ d ∈ mergeWitnessState.distinctIds, d.person_id = mergeWitnessOther.id →
        { d with person_id := mergeWitnessInto.id } ∈
          (mergePeopleRun mergeWitnessState mergeWitnessInto mergeWitnessOther).distinctIds) ∧
     (∀ p ∈ (mergePeopleRun mergeWitnessState mergeWitnessInto mergeWitnessOther).persons,
        p.id = mergeWitnessInto.id →
        p.properties = spread mergeWitnessOther.properties mergeWitnessInto.properties ∧
        p.created_at = min mergeWitnessOther.created_at mergeWitnessInto.created_at)) :=
  ⟨by decide, by decide,
    mergePeople_success_postconditions mergeWitnessState mergeWitnessInto mergeWitnessOther
      (by decide) (by decide)⟩

/-! ## Merge retry loop (C2) -/

/-- Cap on merge attempts, `MAX_FAILED_PERSON_MERGE_ATTEMPTS` (process-event.ts
line 36). -/
def MAX_FAILED_PERSON_MERGE_ATTEMPTS : Nat := 3

/-- Outcome of one `db.moveDistinctIds` call in the merge retry loop: success, a
thrown `RaceConditionError`, or another thrown error. -/
inductive MoveOutcome
  | ok
  | raceConditionError
  | otherError
deriving DecidableEq

/-- Outcome of one `db.deletePerson` call in the merge retry loop: success, a thrown
pg `DatabaseError`, or another thrown error. -/
inductive DeleteOutcome
  | ok
  | databaseError
  | otherError
deriving DecidableEq

/-- How the `while (true)` loop of `mergePeople` exits, carrying the final value of
`failedAttempts`: normal success, a rethrown error, or the break that sets
`shouldRetryAliasOperation` (after which `alias(..., false, failedAttempts)` runs
exactly once). `outOfFuel` marks exhaustion of the artificial recursion bound. -/
inductive MergeLoopExit
  | success (failedAttempts : Nat)
  | propagated (failedAttempts : Nat)
  | aliasRestart (failedAttempts : Nat)
  | outOfFuel
deriving DecidableEq

/-- The `while (true)` retry loop of `mergePeople` (process-event.ts lines 396-428).
`moveOutcome i` and `deleteOutcome i` are oracles giving the outcome of the two
database calls in iteration `i` (the concurrent environment decides them);
`failedAttempts` starts at `totalMergeAttempts`. `fuel` is an artificial recursion
bound; the C2 theorem shows `MAX_FAILED_PERSON_MERGE_ATTEMPTS - totalMergeAttempts`
of it suffices. -/
def mergeLoop (moveOutcome : Nat → MoveOutcome) (deleteOutcome : Nat → DeleteOutcome) :
    Nat → Nat → Nat → MergeLoopExit
  | 0, _, _ => .outOfFuel
  | fuel + 1, i, failedAttempts =>
    match moveOutcome i with
    | .raceConditionError =>
      if failedAttempts + 1 < MAX_FAILED_PERSON_MERGE_ATTEMPTS then
        .aliasRestart (failedAttempts + 1)
      else .propagated (failedAttempts + 1)
    | .otherError => .propagated (failedAttempts + 1)
    | .ok =>
      match deleteOutcome i with
      | .ok => .success failedAttempts
      | .otherError => .propagated failedAttempts
      | .databaseError =>
        if failedAttempts + 1 = MAX_FAILED_PERSON_MERGE_ATTEMPTS then
          .propagated (failedAttempts + 1)
        else mergeLoop moveOutcome deleteOutcome fuel (i + 1) (failedAttempts + 1)

/-- Unfolding of one loop iteration. -/
theorem mergeLoop_succ (moveOutcome : Nat → MoveOutcome)
    (deleteOutcome : Nat → DeleteOutcome) (fuel i a : Nat) :
    mergeLoop moveOutcome deleteOutcome (fuel + 1) i a =
      match moveOutcome i with
      | .raceConditionError =>
        if a + 1 < MAX_FAILED_PERSON_MERGE_ATTEMPTS then .aliasRestart (a + 1)
        else .propagated (a + 1)
      | .otherError => .propagated (a + 1)
      | .ok =>
        match deleteOutcome i with
        | .ok => .success a
        | .otherError => .propagated a
        | .databaseError =>
          if a + 1 = MAX_FAILED_PERSON_MERGE_ATTEMPTS then .propagated (a + 1)
          else mergeLoop moveOutcome deleteOutcome fuel (i + 1) (a + 1) := rfl

/-- Number of alias restarts an exit triggers: the `shouldRetryAliasOperation` block
runs `alias` exactly once on the restart exit and never otherwise. -/
def aliasRestartCount : MergeLoopExit → Nat
  | .aliasRestart _ => 1
  | _ => 0

/-- Every exit triggers at most one alias restart. -/
theorem aliasRestartCount_le_one (r : MergeLoopExit) : aliasRestartCount r ≤ 1 := by
  cases r <;> simp [aliasRestartCount]

/-- Budget discipline of a loop exit: the loop terminated, successful exits stay
below the cap, rethrown errors carry at most the cap, and an alias restart still has
budget left. -/
def exitWithinBudget : MergeLoopExit → Prop
  | .success n => n < MAX_FAILED_PERSON_MERGE_ATTEMPTS
  | .propagated n => n ≤ MAX_FAILED_PERSON_MERGE_ATTEMPTS
  | .aliasRestart n => n < MAX_FAILED_PERSON_MERGE_ATTEMPTS
  | .outOfFuel => False

/-- Fuel `MAX_FAILED_PERSON_MERGE_ATTEMPTS - a` runs the loop to an exit within the
budget whenever `a` failed attempts are already spent, `a` below the cap. -/
theorem mergeLoop_exitWithinBudget (moveOutcome : Nat → MoveOutcome)
    (deleteOutcome : Nat → DeleteOutcome) (fuel i a : Nat)
    (ha : a < MAX_FAILED_PERSON_MERGE_ATTEMPTS)
    (hfuel : MAX_FAILED_PERSON_MERGE_ATTEMPTS - a ≤ fuel) :
    exitWithinBudget (mergeLoop moveOutcome deleteOutcome fuel i a) := by
  have ha3 : a < 3 := ha
  induction fuel generalizing i a with
  | zero =>
    have hf3 : 3 - a ≤ 0 := hfuel
    omega
  | succ fuel ih =>
    rw [mergeLoop_succ]
    cases hmo : moveOutcome i with
    | raceConditionError =>
      by_cases h1 : a + 1 < MAX_FAILED_PERSON_MERGE_ATTEMPTS
      · rw [if_pos h1]
        exact h1
      · rw [if_neg h1]
        show a + 1 ≤ 3
        omega
    | otherError =>
      show a + 1 ≤ 3
      omega
    | ok =>
      cases hdo : deleteOutcome i with
      | ok => exact ha
      | otherError =>
        show a ≤ 3
        omega
      | databaseError =>
        by_cases h1 : a + 1 = MAX_FAILED_PERSON_MERGE_ATTEMPTS
        · rw [if_pos h1]
          show a + 1 ≤ 3
          have h13 : a + 1 = 3 := h1
          omega
        · rw [if_neg h1]
          have h13 : ¬ a + 1 = 3 := h1
          exact ih (i + 1) (a + 1) (by omega) (by omega) (by omega)

/-- C2: starting from fewer than `MAX_FAILED_PERSON_MERGE_ATTEMPTS = 3` prior failed
attempts, the merge retry loop terminates within the combined budget of 3 failed
attempts (race-condition breaks and database-error continues both count, prior
attempts included), triggers at most one alias restart per `mergePeople` call, and
propagates the error as soon as the budget is exhausted — both on a database-error
delete at the cap and on a race-condition break at the cap. -/
theorem mergePeople_retry_budget (moveOutcome : Nat → MoveOutcome)
    (deleteOutcome : Nat → DeleteOutcome) (i totalMergeAttempts : Nat)
    (ha : totalMergeAttempts < MAX_FAILED_PERSON_MERGE_ATTEMPTS) :
    exitWithinBudget (mergeLoop moveOutcome deleteOutcome
      (MAX_FAILED_PERSON_MERGE_ATTEMPTS - totalMergeAttempts) i totalMergeAttempts) ∧
    aliasRestartCount (mergeLoop moveOutcome deleteOutcome
      (MAX_FAILED_PERSON_MERGE_ATTEMPTS - totalMergeAttempts) i totalMergeAttempts) ≤ 1 ∧
    (∀ fuel j b, b + 1 = MAX_FAILED_PERSON_MERGE_ATTEMPTS → moveOutcome j = .ok →
      deleteOutcome j = .databaseError →
      mergeLoop moveOutcome deleteOutcome (fuel + 1) j b = .propagated (b + 1)) ∧
    (∀ fuel j b, MAX_FAILED_PERSON_MERGE_ATTEMPTS ≤ b + 1 →
      moveOutcome j = .raceConditionError →
      mergeLoop moveOutcome deleteOutcome (fuel + 1) j b = .propagated (b + 1)) := by
  refine ⟨mergeLoop_exitWithinBudget _ _ _ i totalMergeAttempts ha (le_refl _),
    aliasRestartCount_le_one _, ?_, ?_⟩
  · intro fuel j b hb hmo hdo
    rw [mergeLoop_succ, hmo]
    show (match deleteOutcome j with
      | .ok => MergeLoopExit.success b
      | .otherError => MergeLoopExit.propagated b
      | .databaseError =>
        if b + 1 = MAX_FAILED_PERSON_MERGE_ATTEMPTS then MergeLoopExit.propagated (b + 1)
        else mergeLoop moveOutcome deleteOutcome fuel (j + 1) (b + 1)) =
      MergeLoopExit.propagated (b + 1)
    rw [hdo]
    show (if b + 1 = MAX_FAILED_PERSON_MERGE_ATTEMPTS then MergeLoopExit.propagated (b + 1)
      else mergeLoop moveOutcome deleteOutcome fuel (j + 1) (b + 1)) =
      MergeLoopExit.propagated (b + 1)
    rw [if_pos hb]
  · intro fuel j b hb hmo
    rw [mergeLoop_succ, hmo]
    show (if b + 1 < MAX_FAILED_PERSON_MERGE_ATTEMPTS then MergeLoopExit.aliasRestart (b + 1)
      else MergeLoopExit.propagated (b + 1)) = MergeLoopExit.propagated (b + 1)
    rw [if_neg (by omega)]

/-- Witness for C2 with the oracles that always race on delete: starting at zero
prior attempts the loop exits within budget. -/
theorem mergePeople_retry_budget_witness :
    0 < MAX_FAILED_PERSON_MERGE_ATTEMPTS ∧
    (exitWithinBudget (mergeLoop (fun _ => .ok) (fun _ => .databaseError)
      (MAX_FAILED_PERSON_MERGE_ATTEMPTS - 0) 0 0) ∧
     aliasRestartCount (mergeLoop (fun _ => .ok) (fun _ => .databaseError)
      (MAX_FAILED_PERSON_MERGE_ATTEMPTS - 0) 0 0) ≤ 1 ∧
     (∀ fuel j b, b + 1 = MAX_FAILED_PERSON_MERGE_ATTEMPTS →
        (fun _ => MoveOutcome.ok) j = .ok →
        (fun _ => DeleteOutcome.databaseError) j = .databaseError →
        mergeLoop (fun _ => .ok) (fun _ => .databaseError) (fuel + 1) j b =
          .propagated (b + 1)) ∧
     (∀ fuel j b, MAX_FAILED_PERSON_MERGE_ATTEMPTS ≤ b + 1 →
        (fun _ => MoveOutcome.ok) j = .raceConditionError →
        mergeLoop (fun _ => .ok) (fun _ => .databaseError) (fuel + 1) j b =
          .propagated (b + 1))) :=
  ⟨by decide, mergePeople_retry_budget (fun _ => .ok) (fun _ => .databaseError) 0 0 (by decide)⟩

/-! ## Timestamp reconciler (C3) -/

/-- The offset fallback of `handleTimestamp` (process-event.ts lines 181-184): a
truthy (present, nonzero) `offset` yields `now.minus(Duration.fromMillis(offset))`,
otherwise `now`. -/
def handleTimestampOffset (offset : Option Int) (now : Int) : Int :=
  match offset with
  | some o => if o ≠ 0 then now - o else now
  | none => now

/-- Embedding of `handleTimestamp` (process-event.ts lines 165-185). Instants are Int
milliseconds since epoch. `parseJSDate ts` models the computation
`DateTime.fromJSDate(new Date(ts)).diff(sentAt)` inside the try block: `some`
instant when it yields a usable client timestamp, `none` when the computation
throws, in which case the catch logs, reports to Sentry, and control falls
through to the `DateTime.fromISO` return. `parseISO` models `DateTime.fromISO`.
JS truthiness guards the branches: an absent or empty `timestamp` string is
falsy, an absent or zero `offset` is falsy. -/
def handleTimestamp (parseJSDate : String → Option Int) (parseISO : String → Int)
    (timestamp : Option String) (offset : Option Int) (now : Int)
    (sentAt : Option Int) : Int :=
  match timestamp with
  | some ts =>
    if ts ≠ "" then
      match sentAt with
      | some sa =>
        match parseJSDate ts with
        | some t => now + (t - sa)
        | none => parseISO ts
      | none => parseISO ts
    else handleTimestampOffset offset now
  | none => handleTimestampOffset offset now

/-- Counterexample to C3 as stated: with no client timestamp and a present but
negative offset of −1000 ms, the code returns `now − offset` = now + 1000, while
the ordered rules of the claim ("non-negative offset present → now − offset; else now")
prescribe `now`. At now = 0 the code yields 1000 ≠ 0. -/
theorem handleTimestamp_negative_offset_counterexample :
    handleTimestamp (fun _ => none) (fun _ => 0) none (some (-1000)) 0 none = 1000 ∧
    ((1000 : Int) ≠ 0) := by
  refine ⟨?_, by decide⟩
  rfl

/-- Concrete parse oracle for the S2 clock-skew scenario: the client timestamp
2023-12-31T23:59:50Z is 1704067190000 ms since epoch. -/
def exampleParseJSDate : String → Option Int := fun s =>
  if s = "2023-12-31T23:59:50Z" then some 1704067190000 else none

/-- Concrete ISO parse oracle for witnesses (its values are never reached). -/
def exampleParseISO : String → Int := fun _ => 0

/-- C3 amended: the reconciler implements the four ordered rules with presence
read as JS truthiness (non-empty timestamp string, nonzero offset), and with the
offset rule applying to any nonzero offset, negative ones included: (1) timestamp
and sent_at both present → now + (timestamp − sent_at); (2) if that subtraction
throws, or sent_at is absent → the timestamp parsed as ISO-8601; (3) no timestamp
and a nonzero offset → now − offset; (4) otherwise → now. -/
theorem handleTimestamp_rules (parseJSDate : String → Option Int)
    (parseISO : String → Int) (now : Int) :
    (∀ ts sentAt t, ts ≠ "" → parseJSDate ts = some t → ∀ off,
      handleTimestamp parseJSDate parseISO (some ts) off now (some sentAt) =
        now + (t - sentAt)) ∧
    (∀ ts sentAt, ts ≠ "" → parseJSDate ts = none → ∀ off,
      handleTimestamp parseJSDate parseISO (some ts) off now (some sentAt) =
        parseISO ts) ∧
    (∀ ts off, ts ≠ "" →
      handleTimestamp parseJSDate parseISO (some ts) off now none = parseISO ts) ∧
    (∀ off sentAt, off ≠ 0 →
      handleTimestamp parseJSDate parseISO none (some off) now sentAt = now - off) ∧
    (∀ sentAt,
      handleTimestamp parseJSDate parseISO none (some 0) now sentAt = now) ∧
    (∀ sentAt, handleTimestamp parseJSDate parseISO none none now sentAt = now) := by
  refine ⟨?_, ?_, ?_, ?_, ?_, ?_⟩
  · intro ts sa t hts hjs off
    simp [handleTimestamp, hts, hjs]
  · intro ts sa hts hjs off
    simp [handleTimestamp, hts, hjs]
  · intro ts off hts
    simp [handleTimestamp, hts]
  · intro off sa hoff
    simp [handleTimestamp, handleTimestampOffset, hoff]
  · intro sa
    simp [handleTimestamp, handleTimestampOffset]
  · intro sa
    simp [handleTimestamp, handleTimestampOffset]

/-- Witness for C3 (scenario S2): timestamp 2023-12-31T23:59:50Z with sent_at
2023-12-31T23:59:55Z and now 2024-01-01T00:00:05Z reconciles to
2024-01-01T00:00:00Z, i.e. now − 5s. -/
theorem handleTimestamp_rules_witness :
    ("2023-12-31T23:59:50Z" ≠ "") ∧
    exampleParseJSDate "2023-12-31T23:59:50Z" = some 1704067190000 ∧
    handleTimestamp exampleParseJSDate exampleParseISO (some "2023-12-31T23:59:50Z")
      none 1704067205000 (some 1704067195000) = 1704067200000 := by
  refine ⟨by decide, by decide, ?_⟩
  have h := (handleTimestamp_rules exampleParseJSDate exampleParseISO 1704067205000).1
    "2023-12-31T23:59:50Z" 1704067195000 1704067190000 (by decide) (by decide) none
  rw [h]
  norm_num

/-! ## processEvent control flow (C4, C8) -/

/-- The distinguished errors `processEvent` can propagate to its caller. -/
inductive ProcessError
  | invalidUUID (uuid : String)
  | snapshotError (msg : String)
  | captureError (msg : String)
deriving DecidableEq

/-- Observable actions `processEvent` performs against collaborators, in order. -/
inductive ProcessStep
  | identifyOrAlias
  | identifyErrorReported (msg : String)
  | sessionRecordingWrite
  | captureWrite
deriving DecidableEq

/-- Embedding of `processEvent` (process-event.ts lines 66-163) with the outcomes of its
collaborator calls supplied as oracles: `validateUUID` models
`UUID.validateString` (whose body lives outside the given sources);
`identifyOutcome` is `some msg` when `handleIdentifyOrAlias` throws and `none`
when it succeeds; `snapshotOutcome` and `captureOutcome` are the outcomes of
`createSessionRecordingEvent` and `capture`. Returns the propagated error or the
`EventProcessingResult` (`none` for snapshot events, which produce no result),
paired with the trace of performed steps: errors of the identify step are caught,
reported and swallowed, while snapshot/capture errors propagate. -/
def processEventModel (validateUUID : String → Bool) (eventUuid : String)
    (eventName : String) (identifyOutcome : Option String)
    (snapshotOutcome : Except String Unit) (captureOutcome : Except String String) :
    Except ProcessError (Option String) × List ProcessStep :=
  if validateUUID eventUuid = false then
    (.error (.invalidUUID eventUuid), [])
  else
    let identifySteps : List ProcessStep :=
      match identifyOutcome with
      | none => [.identifyOrAlias]
      | some msg => [.identifyOrAlias, .identifyErrorReported msg]
    if eventName = "$snapshot" then
      match snapshotOutcome with
      | .ok _ => (.ok none, identifySteps ++ [.sessionRecordingWrite])
      | .error msg => (.error (.snapshotError msg), identifySteps)
    else
      match captureOutcome with
      | .ok ev => (.ok (some ev), identifySteps ++ [.captureWrite])
      | .error msg => (.error (.captureError msg), identifySteps)

/-- C4: an error thrown by `handleIdentifyOrAlias` never changes the result of
`processEvent` — it is reported and swallowed, the event is still captured (or,
for $snapshot, recorded) — while an error from `capture` is propagated. -/
theorem identify_errors_swallowed (validateUUID : String → Bool)
    (eventUuid eventName msg : String) (snapshotOutcome : Except String Unit)
    (captureOutcome : Except String String)
    (hv : validateUUID eventUuid = true) :
    (processEventModel validateUUID eventUuid eventName (some msg) snapshotOutcome
        captureOutcome).1 =
      (processEventModel validateUUID eventUuid eventName none snapshotOutcome
        captureOutcome).1 ∧
    ProcessStep.identifyErrorReported msg ∈
      (processEventModel validateUUID eventUuid eventName (some msg) snapshotOutcome
        captureOutcome).2 ∧
    (∀ ev, eventName ≠ "$snapshot" → captureOutcome = .ok ev →
      (processEventModel validateUUID eventUuid eventName (some msg) snapshotOutcome
        captureOutcome).1 = .ok (some ev)) ∧
    (eventName = "$snapshot" → snapshotOutcome = .ok () →
      (processEventModel validateUUID eventUuid eventName (some msg) snapshotOutcome
        captureOutcome).1 = .ok none) ∧
    (∀ err, eventName ≠ "$snapshot" → captureOutcome = .error err →
      (processEventModel validateUUID eventUuid eventName (some msg) snapshotOutcome
        captureOutcome).1 = .error (.captureError err)) := by
  refine ⟨?_, ?_, ?_, ?_, ?_⟩
  · simp only [processEventModel, hv]
    by_cases hs : eventName = "$snapshot"
    · rw [if_pos hs, if_pos hs]
      cases snapshotOutcome <;> simp
    · rw [if_neg hs, if_neg hs]
      cases captureOutcome <;> simp
  · simp only [processEventModel, hv]
    by_cases hs : eventName = "$snapshot"
    · rw [if_pos hs]
      cases snapshotOutcome <;> simp
    · rw [if_neg hs]
      cases captureOutcome <;> simp
  · intro ev hs hc
    simp [processEventModel, hv, hs, hc]
  · intro hs hsn
    simp [processEventModel, hv, hs, hsn]
  · intro err hs hc
    simp [processEventModel, hv, hs, hc]

/-- Witness for C4 at concrete inputs: a failing identify step on a pageview whose
capture succeeds. -/
theorem identify_errors_swallowed_witness :
    ((fun _ => true) "uuid-1" = true) ∧
    ((processEventModel (fun _ => true) "uuid-1" "pageview" (some "identify boom")
        (.ok ()) (.ok "captured")).1 =
      (processEventModel (fun _ => true) "uuid-1" "pageview" none
        (.ok ()) (.ok "captured")).1 ∧
     ProcessStep.identifyErrorReported "identify boom" ∈
      (processEventModel (fun _ => true) "uuid-1" "pageview" (some "identify boom")
        (.ok ()) (.ok "captured")).2 ∧
     (∀ ev, "pageview" ≠ "$snapshot" → (.ok "captured" : Except String String) = .ok ev →
      (processEventModel (fun _ => true) "uuid-1" "pageview" (some "identify boom")
        (.ok ()) (.ok "captured")).1 = .ok (some ev)) ∧
     ("pageview" = "$snapshot" → (.ok () : Except String Unit) = .ok () →
      (processEventModel (fun _ => true) "uuid-1" "pageview" (some "identify boom")
        (.ok ()) (.ok "captured")).1 = .ok none) ∧
     (∀ err, "pageview" ≠ "$snapshot" → (.ok "captured" : Except String String) = .error err →
      (processEventModel (fun _ => true) "uuid-1" "pageview" (some "identify boom")
        (.ok ()) (.ok "captured")).1 = .error (.captureError err))) :=
  ⟨rfl, identify_errors_swallowed (fun _ => true) "uuid-1" "pageview" "identify boom"
    (.ok ()) (.ok "captured") rfl⟩

/-- C8: an invalid event uuid makes `processEvent` throw the invalid-UUID error
before performing any step (the trace is empty, so no database or sink state is
touched), and a valid uuid never produces that error. -/
theorem invalid_uuid_rejected_first (validateUUID : String → Bool)
    (eventUuid eventName : String) (identifyOutcome : Option String)
    (snapshotOutcome : Except String Unit) (captureOutcome : Except String String) :
    (validateUUID eventUuid = false →
      processEventModel validateUUID eventUuid eventName identifyOutcome
        snapshotOutcome captureOutcome = (.error (.invalidUUID eventUuid), [])) ∧
    (validateUUID eventUuid = true → ∀ u,
      (processEventModel validateUUID eventUuid eventName identifyOutcome
        snapshotOutcome captureOutcome).1 ≠ .error (.invalidUUID u)) := by
  constructor
  · intro hv
    simp [processEventModel, hv]
  · intro hv u
    simp only [processEventModel, hv]
    by_cases hs : eventName = "$snapshot"
    · rw [if_pos hs]
      cases snapshotOutcome <;> simp
    · rw [if_neg hs]
      cases captureOutcome <;> simp

/-- Witness for C8: a rejecting validator on one input, an accepting one on
another. -/
theorem invalid_uuid_rejected_first_witness :
    (((fun _ => false) "not-a-uuid" = false →
      processEventModel (fun _ => false) "not-a-uuid" "pageview" none (.ok ()) (.ok "r") =
        (.error (.invalidUUID "not-a-uuid"), [])) ∧
     ((fun _ => false) "not-a-uuid" = true → ∀ u,
      (processEventModel (fun _ => false) "not-a-uuid" "pageview" none (.ok ()) (.ok "r")).1 ≠
        .error (.invalidUUID u))) ∧
    processEventModel (fun _ => false) "not-a-uuid" "pageview" none (.ok ()) (.ok "r") =
      (.error (.invalidUUID "not-a-uuid"), []) :=
  ⟨invalid_uuid_rejected_first (fun _ => false) "not-a-uuid" "pageview" none (.ok ()) (.ok "r"),
   (invalid_uuid_rejected_first (fun _ => false) "not-a-uuid" "pageview" none
      (.ok ()) (.ok "r")).1 rfl⟩

/-! ## IP injection in capture (C7) -/

/-- JS property assignment `obj[k] = v`: overwrite in place, or append a new key. -/
def setProp (ps : Props) (k v : String) : Props :=
  if (getProp ps k).isSome then ps.map (fun p => if p.1 = k then (p.1, v) else p)
  else ps ++ [(k, v)]

/-- The `$ip` injection step of `capture` (process-event.ts lines 462-464):
`if ip truthy, anonymize_ips unset, no $ip key yet, then the ip is assigned to the $ip key`.
JS truthiness: a null or empty-string `ip` is falsy. -/
def captureIpInjection (ip : Option String) (anonymizeIps : Bool) (properties : Props) :
    Props :=
  match ip with
  | some ipValue =>
    if ipValue ≠ "" ∧ anonymizeIps = false ∧ getProp properties "$ip" = none then
      setProp properties "$ip" ipValue
    else properties
  | none => properties

/-- Counterexample to C7 as stated: the empty string is a non-null ip, the team
does not anonymize ips and `$ip` is absent, so the claim requires injection — but
the truthiness check of the code skips the falsy empty string and leaves the properties
without `$ip`. -/
theorem capture_ip_empty_string_counterexample :
    (some "" ≠ (none : Option String)) ∧
    captureIpInjection (some "") false [] = [] ∧
    getProp (captureIpInjection (some "") false []) "$ip" = none := by
  refine ⟨by decide, rfl, rfl⟩

/-- C7 amended: `$ip` is injected iff the input ip is truthy (non-null and
non-empty), the anonymize_ips flag of the team is false, and `$ip` is not already in
the properties — in which case it is appended with the ip as value; in every
other case the properties are returned unchanged. -/
theorem capture_ip_injection_rule (ip : Option String) (anonymizeIps : Bool)
    (ps : Props) :
    (∀ ipValue, ip = some ipValue → ipValue ≠ "" → anonymizeIps = false →
      getProp ps "$ip" = none →
      captureIpInjection ip anonymizeIps ps = ps ++ [("$ip", ipValue)]) ∧
    (ip = none ∨ ip = some "" ∨ anonymizeIps = true ∨ (getProp ps "$ip").isSome →
      captureIpInjection ip anonymizeIps ps = ps) := by
  constructor
  · intro ipValue hip hne hanon habs
    subst hip
    rw [captureIpInjection, if_pos ⟨hne, hanon, habs⟩, setProp, habs]
    simp
  · intro h
    rcases h with h | h | h | h
    · subst h; rfl
    · subst h
      rw [captureIpInjection, if_neg]
      simp
    · subst h
      cases ip with
      | none => rfl
      | some ipValue =>
        rw [captureIpInjection, if_neg]
        simp
    · cases ip with
      | none => rfl
      | some ipValue =>
        rw [captureIpInjection, if_neg]
        intro hc
        rw [hc.2.2] at h
        simp at h

/-- Witness for C7: ip 1.2.3.4 on a non-anonymizing team with no `$ip` key is
appended to the properties. -/
theorem capture_ip_injection_rule_witness :
    ((some "1.2.3.4" = some "1.2.3.4") ∧ ("1.2.3.4" ≠ "") ∧ (false = false) ∧
      getProp [("k", "v")] "$ip" = none) ∧
    captureIpInjection (some "1.2.3.4") false [("k", "v")] =
      [("k", "v")] ++ [("$ip", "1.2.3.4")] :=
  ⟨⟨rfl, by decide, rfl, by decide⟩,
    (capture_ip_injection_rule (some "1.2.3.4") false [("k", "v")]).1 "1.2.3.4" rfl
      (by decide) rfl (by decide)⟩

/-! ## Kafka producer records for person state (C6) -/

/-- A Kafka producer message as assembled by the DB layer: an optional partition
key and a value payload. -/
structure KafkaMessage (α : Type) where
  key : Option String
  value : α
deriving DecidableEq

/-- The value of the person-topic message queued by `DB.createPerson` (db.ts). -/
structure PersonTopicValue where
  created_at : String
  properties : String
  team_id : Nat
  is_identified : Bool
  id : String
deriving DecidableEq

/-- The person-topic producer record queued by `DB.createPerson`: only a `value`
is set — the message carries no key. -/
def createPersonKafkaMessage (createdAt propertiesJSON : String) (teamId : Nat)
    (isIdentified : Bool) (uuid : String) : KafkaMessage PersonTopicValue :=
  { key := none,
    value := { created_at := createdAt, properties := propertiesJSON,
               team_id := teamId, is_identified := isIdentified, id := uuid } }

/-- The value of the distinct-id-topic message built by `DB.addDistinctIdPooled`:
the inserted row with `person_id` replaced by the uuid of the person. -/
structure DistinctIdTopicValue where
  id : Nat
  distinct_id : String
  person_id : String
  team_id : Nat
deriving DecidableEq

/-- The distinct-id-topic producer record built by `DB.addDistinctIdPooled`
(db.ts): only a `value` is set — the message carries no key. -/
def addDistinctIdKafkaMessage (row : PersonDistinctId) (personUuid : String) :
    KafkaMessage DistinctIdTopicValue :=
  { key := none,
    value := { id := row.id, distinct_id := row.distinct_id,
               person_id := personUuid, team_id := row.team_id } }

/-- Counterexample to C6 as stated: neither the person-topic message of
`createPerson` nor the distinct-id-topic message of `addDistinctIdPooled` is
keyed by a uuid — both are queued without any key. -/
theorem person_messages_not_keyed_counterexample :
    (createPersonKafkaMessage "2024-01-01 00:00:00" "props" 2 false "uuid-p").key ≠
      some "uuid-p" ∧
    (addDistinctIdKafkaMessage { id := 1, distinct_id := "d1", person_id := 7, team_id := 2 }
      "uuid-p").key ≠ some "uuid-p" := by
  refine ⟨by decide, by decide⟩

/-- C6 amended: every person-topic message queued by `createPerson` and every
distinct-id-topic message built by `addDistinctIdPooled` is published with no
key at all (partitioning is left to the producer default); the person uuid
travels inside the value (`id` on the person topic, `person_id` on the
distinct-id topic). -/
theorem person_messages_have_no_key (createdAt propertiesJSON : String) (teamId : Nat)
    (isIdentified : Bool) (uuid : String) (row : PersonDistinctId)
    (personUuid : String) :
    (createPersonKafkaMessage createdAt propertiesJSON teamId isIdentified uuid).key
      = none ∧
    (addDistinctIdKafkaMessage row personUuid).key = none ∧
    (createPersonKafkaMessage createdAt propertiesJSON teamId isIdentified uuid).value.id
      = uuid ∧
    (addDistinctIdKafkaMessage row personUuid).value.person_id = personUuid :=
  ⟨rfl, rfl, rfl, rfl⟩

/-! ## Canonical event construction (C10) -/

/-- The canonical event payload assembled by `createEvent` (process-event.ts
lines 508-523). `timestampString` stands for the single
`castTimestampOrNow(timestamp, …)` result computed once and used for both
timestamp fields. -/
structure EventPayload where
  uuid : String
  event : String
  properties : String
  timestamp : String
  teamId : Nat
  distinctId : String
  elementsChain : String
  createdAt : String
deriving DecidableEq

/-- Payload construction of `createEvent`. -/
def createEventPayload (uuid event : String) (teamId : Nat)
    (distinctId propertiesJSON timestampString elementsChain : String) : EventPayload :=
  { uuid, event, properties := propertiesJSON, timestamp := timestampString,
    teamId, distinctId, elementsChain, createdAt := timestampString }

/-- The session-recording record assembled by `createSessionRecordingEvent`
(process-event.ts lines 580-588). -/
structure SessionRecordingEventData where
  uuid : String
  team_id : Nat
  distinct_id : String
  session_id : String
  snapshot_data : String
  timestamp : String
  created_at : String
deriving DecidableEq

/-- Record construction of `createSessionRecordingEvent`. -/
def createSessionRecordingEventData (uuid : String) (teamId : Nat)
    (distinctId sessionId snapshotJSON timestampString : String) :
    SessionRecordingEventData :=
  { uuid, team_id := teamId, distinct_id := distinctId, session_id := sessionId,
    snapshot_data := snapshotJSON, timestamp := timestampString,
    created_at := timestampString }

/-- C10: in every canonical event and every session-recording record, the
created_at field equals the timestamp field — both are the same formatted
canonical-timestamp string, never an independent server ingestion time. -/
theorem created_at_equals_timestamp (uuid event : String) (teamId : Nat)
    (distinctId propertiesJSON timestampString elementsChain sessionId
      snapshotJSON : String) :
    (createEventPayload uuid event teamId distinctId propertiesJSON timestampString
      elementsChain).createdAt =
      (createEventPayload uuid event teamId distinctId propertiesJSON timestampString
        elementsChain).timestamp ∧
    (createSessionRecordingEventData uuid teamId distinctId sessionId snapshotJSON
      timestampString).created_at =
      (createSessionRecordingEventData uuid teamId distinctId sessionId snapshotJSON
        timestampString).timestamp :=
  ⟨rfl, rfl⟩

/-! ## fetchOrganization SQL (C9) -/

/-- The SQL text `DB.fetchOrganization` actually sends (db.ts): the equality
operator is missing from the predicate. -/
def fetchOrganizationQuery : String :=
  "SELECT * FROM posthog_organization WHERE id $1"

/-- The SQL text the spec requires for `fetchOrganization` (spec §9, open
question 1: treat the source as buggy and specify `WHERE id = $1`). -/
def fetchOrganizationQuerySpec : String :=
  "SELECT * FROM posthog_organization WHERE id = $1"

/-- C9: the query the code issues differs from the specified `WHERE id = $1`
form — `id $1` is not a predicate, so the lookup cannot return the row whose id
equals the argument; Postgres rejects the statement for any organizationId. -/
theorem fetchOrganization_sql_malformed :
    fetchOrganizationQuery ≠ fetchOrganizationQuerySpec := by
  decide

end PluginServer
